import Mathlib

/-!
Verification of the multiplexing protocol layer of this repository.

The repository ships the service declaration src/proto/ui.proto; the
protocol runtime itself (frame codec, call registry, dispatcher, service
table) is specified in the design document but its implementation is not
part of the checked-in sources, so those components are modelled here
faithfully from the specification text and every theorem about them is a
theorem about that model.
-/

/-! ## Service declaration surface, from src/proto/ui.proto -/

/-- Payload types that appear in src/proto/ui.proto (common.proto message
names plus the request message declared in ui.proto itself). -/
inductive ProtoType where
  | EmptyT
  | BooleanT
  | StringT
  | EmptyRequestT
  | StringRequestT
  | WebviewProviderTypeRequestT
deriving DecidableEq, Repr

/-- One rpc declaration of a proto service: method name, input message
type, output message type, and whether the output is a server stream. -/
structure RpcDecl where
  name : String
  input : ProtoType
  output : ProtoType
  streaming : Bool
deriving DecidableEq, Repr

/-- The UiService surface exactly as declared in src/proto/ui.proto,
lines 22 to 40, in declaration order. -/
def UiService : List RpcDecl :=
  [⟨"scrollToSettings", .StringRequestT, .EmptyT, false⟩,
   ⟨"onDidShowAnnouncement", .EmptyRequestT, .BooleanT, false⟩,
   ⟨"subscribeToAddToInput", .EmptyRequestT, .StringT, true⟩,
   ⟨"subscribeToMcpButtonClicked", .WebviewProviderTypeRequestT, .EmptyT, true⟩,
   ⟨"subscribeToHistoryButtonClicked", .WebviewProviderTypeRequestT, .EmptyT, true⟩,
   ⟨"subscribeToChatButtonClicked", .EmptyRequestT, .EmptyT, true⟩]

/-- The WebviewProviderType enum of src/proto/ui.proto, lines 10 to 13. -/
inductive WebviewProviderType where
  | SIDEBAR
  | TAB
deriving DecidableEq, Repr

/-- Numeric value of each WebviewProviderType enum case as assigned in
src/proto/ui.proto. -/
def WebviewProviderType.toNat : WebviewProviderType → Nat
  | .SIDEBAR => 0
  | .TAB => 1

/-! ## Error taxonomy and frames

Modelled from the spec: sections 3 and 7 of the design document; the
implementation of the frame data model is not among the checked-in
sources. -/

/-- Modelled from the spec: the error taxonomy of section 7. -/
inductive ErrCode where
  | DECODE_ERROR
  | METHOD_NOT_FOUND
  | HANDLER_ERROR
  | TIMEOUT
  | CANCELLED
  | TRANSPORT_CLOSED
deriving DecidableEq, Repr

/-- Modelled from the spec: errorInfo is a code plus a human readable
message (section 3, Frame). -/
structure ErrorInfo where
  code : ErrCode
  message : String
deriving DecidableEq, Repr

/-- Modelled from the spec: the result carried by a RESPONSE frame is
either a value or an errorInfo (RESPONSE with error). -/
inductive CallResult where
  | ok (value : List Nat)
  | err (error : ErrorInfo)
deriving DecidableEq, Repr

/-- Modelled from the spec: the Frame data model of section 3.  The kind
field is the constructor; service and method are present only on REQUEST,
errorInfo only on RESPONSE with error and STREAM_ERROR.  Payloads are
opaque byte lists. -/
inductive Frame where
  | request (callId : Nat) (service : String) (method : String) (payload : List Nat)
  | response (callId : Nat) (result : CallResult)
  | streamEvent (callId : Nat) (payload : List Nat)
  | streamEnd (callId : Nat)
  | streamError (callId : Nat) (error : ErrorInfo)
  | cancel (callId : Nat)
deriving DecidableEq, Repr

/-! ## Association-list helpers shared by registry and service table -/

/-- First binding of key k in an association list, if any. -/
def findEntry {α β : Type} [DecidableEq α] (k : α) : List (α × β) → Option β
  | [] => none
  | (a, b) :: rest => if a = k then some b else findEntry k rest

/-- Remove the first binding of key k, the atomic check-and-remove of the
registry. -/
def removeEntry {α β : Type} [DecidableEq α] (k : α) : List (α × β) → List (α × β)
  | [] => []
  | (a, b) :: rest => if a = k then rest else (a, b) :: removeEntry k rest

/-- The key list of an association list. -/
def keysOf {α β : Type} : List (α × β) → List α
  | [] => []
  | (a, _) :: rest => a :: keysOf rest

/-! ## Call Registry

Modelled from the spec: sections 3, 4.2 and 5 of the design document; the
Call Registry implementation is not among the checked-in sources.  The
consumer callbacks are opaque tokens of type kappa (unary continuations)
and sigma (subscription sinks); invoking a callback is recorded as an
explicit Effect value so that exactly-once firing is a statement about
the produced effect list. -/

/-- Modelled from the spec: subscription state, section 3. -/
inductive SubState where
  | OPEN
  | CLOSED
deriving DecidableEq, Repr

/-- Modelled from the spec: a PendingCall holds its continuation token, a
creation timestamp and an optional deadline (section 3). -/
structure PendingCall (κ : Type) where
  cont : κ
  createdAt : Nat
  deadline : Option Nat
deriving DecidableEq, Repr

/-- Modelled from the spec: the Call Registry owns a monotonic id counter,
the pending unary calls and the open subscriptions, keyed by call id
(sections 3 and 4.2). -/
structure Registry (κ σ : Type) where
  nextId : Nat
  pending : List (Nat × PendingCall κ)
  subs : List (Nat × σ × SubState)
deriving DecidableEq, Repr

/-- A consumer-visible callback invocation performed by the registry.
Each effect names the call id it belongs to and the callback token it
fires. -/
inductive Effect (κ σ : Type) where
  | resolved (callId : Nat) (cont : κ) (value : List Nat)
  | rejected (callId : Nat) (cont : κ) (error : ErrorInfo)
  | event (callId : Nat) (sink : σ) (value : List Nat)
  | completed (callId : Nat) (sink : σ)
  | errored (callId : Nat) (sink : σ) (error : ErrorInfo)
deriving DecidableEq, Repr

/-- The call id an effect belongs to. -/
def Effect.callId {κ σ : Type} : Effect κ σ → Nat
  | .resolved i _ _ => i
  | .rejected i _ _ => i
  | .event i _ _ => i
  | .completed i _ => i
  | .errored i _ _ => i

/-- The registry of a freshly constructed endpoint. -/
def Registry.empty (κ σ : Type) : Registry κ σ :=
  ⟨0, [], []⟩

/-- Modelled from the spec: registerCall allocates a fresh id from the
monotonic counter and stores the pending call (section 4.2). -/
def Registry.registerCall {κ σ : Type} (r : Registry κ σ) (cont : κ) (now : Nat)
    (deadline : Option Nat) : Nat × Registry κ σ :=
  (r.nextId,
   { r with
     nextId := r.nextId + 1
     pending := (r.nextId, ⟨cont, now, deadline⟩) :: r.pending })

/-- Modelled from the spec: openSubscription uses the same id-allocation
discipline, stores the sink and sets state OPEN (section 4.2). -/
def Registry.openSubscription {κ σ : Type} (r : Registry κ σ) (sink : σ) :
    Nat × Registry κ σ :=
  (r.nextId,
   { r with
     nextId := r.nextId + 1
     subs := (r.nextId, sink, SubState.OPEN) :: r.subs })

/-- Modelled from the spec: resolve settles and removes the entry with an
atomic check-and-remove; an unknown or already settled id is a no-op
(section 4.2). -/
def Registry.resolve {κ σ : Type} (id : Nat) (v : List Nat) (r : Registry κ σ) :
    Registry κ σ × List (Effect κ σ) :=
  match findEntry id r.pending with
  | some pc => ({ r with pending := removeEntry id r.pending }, [.resolved id pc.cont v])
  | none => (r, [])

/-- Modelled from the spec: reject settles and removes the entry with an
atomic check-and-remove; an unknown or already settled id is a no-op
(section 4.2). -/
def Registry.reject {κ σ : Type} (id : Nat) (e : ErrorInfo) (r : Registry κ σ) :
    Registry κ σ × List (Effect κ σ) :=
  match findEntry id r.pending with
  | some pc => ({ r with pending := removeEntry id r.pending }, [.rejected id pc.cont e])
  | none => (r, [])

/-- Modelled from the spec: feedEvent delivers to the sink iff the
subscription exists with state OPEN, and is ignored silently otherwise
(section 4.2). -/
def Registry.feedEvent {κ σ : Type} (id : Nat) (v : List Nat) (r : Registry κ σ) :
    Registry κ σ × List (Effect κ σ) :=
  match findEntry id r.subs with
  | some (sink, SubState.OPEN) => (r, [.event id sink v])
  | _ => (r, [])

/-- Modelled from the spec: closeSubscription invokes the completion or
error handler exactly once and removes the entry; it is also the local
removal performed when the consumer cancels (sections 3 and 4.2). -/
def Registry.closeSubscription {κ σ : Type} (id : Nat) (err? : Option ErrorInfo)
    (r : Registry κ σ) : Registry κ σ × List (Effect κ σ) :=
  match findEntry id r.subs with
  | some (sink, _) =>
    ({ r with subs := removeEntry id r.subs },
     match err? with
     | none => [.completed id sink]
     | some e => [.errored id sink e])
  | none => (r, [])

/-- The CANCELLED error used by cancelAll, section 7 taxonomy. -/
def cancelledError : ErrorInfo :=
  ⟨.CANCELLED, "cancelled"⟩

/-- The rejection callbacks cancelAll fires for the pending calls. -/
def rejectAllEffects {κ σ : Type} (l : List (Nat × PendingCall κ)) : List (Effect κ σ) :=
  l.map fun p => Effect.rejected p.1 p.2.cont cancelledError

/-- The terminal callbacks cancelAll fires for the open subscriptions. -/
def closeAllEffects {κ σ : Type} (l : List (Nat × σ × SubState)) : List (Effect κ σ) :=
  l.filterMap fun s =>
    if s.2.2 = SubState.OPEN then some (Effect.errored s.1 s.2.1 cancelledError) else none

/-- Modelled from the spec: cancelAll rejects every pending call with a
CANCELLED error and closes every open subscription, leaving the registry
empty (section 4.2). -/
def Registry.cancelAll {κ σ : Type} (r : Registry κ σ) :
    Registry κ σ × List (Effect κ σ) :=
  ({ r with pending := [], subs := [] },
   rejectAllEffects r.pending ++ closeAllEffects r.subs)

/-- The ids of the OPEN entries of a subscription table. -/
def openIdsOf {σ : Type} (l : List (Nat × σ × SubState)) : List Nat :=
  l.filterMap fun s => if s.2.2 = SubState.OPEN then some s.1 else none

/-- The ids of the currently open subscriptions of a registry snapshot. -/
def openSubIds {κ σ : Type} (r : Registry κ σ) : List Nat :=
  openIdsOf r.subs

/-! ## Settlement sequences for the at-most-once property -/

/-- One external settlement attempt against the registry: a resolve or a
reject invocation for some call id. -/
inductive SettleOp where
  | resolveOp (callId : Nat) (value : List Nat)
  | rejectOp (callId : Nat) (error : ErrorInfo)
deriving DecidableEq, Repr

/-- The call id a settlement attempt targets. -/
def SettleOp.callId : SettleOp → Nat
  | .resolveOp i _ => i
  | .rejectOp i _ => i

/-- Apply one settlement attempt. -/
def applySettle {κ σ : Type} (op : SettleOp) (r : Registry κ σ) :
    Registry κ σ × List (Effect κ σ) :=
  match op with
  | .resolveOp id v => Registry.resolve id v r
  | .rejectOp id e => Registry.reject id e r

/-- Run a sequence of settlement attempts, collecting every callback
invocation the registry performs. -/
def runSettles {κ σ : Type} : List SettleOp → Registry κ σ → Registry κ σ × List (Effect κ σ)
  | [], r => (r, [])
  | op :: ops, r =>
    ((runSettles ops (applySettle op r).1).1,
     (applySettle op r).2 ++ (runSettles ops (applySettle op r).1).2)

/-- Does this effect fire the unary continuation registered under id? -/
def Effect.isSettleOf {κ σ : Type} (id : Nat) : Effect κ σ → Bool
  | .resolved i _ _ => i == id
  | .rejected i _ _ => i == id
  | _ => false

/-- Does this effect fire a terminal signal (completion or error) of the
subscription registered under id? -/
def Effect.isTerminalOf {κ σ : Type} (id : Nat) : Effect κ σ → Bool
  | .completed i _ => i == id
  | .errored i _ _ => i == id
  | _ => false

/-- Does this effect reject the pending call registered under id with a
CANCELLED error? -/
def Effect.isCancelRejectOf {κ σ : Type} (id : Nat) : Effect κ σ → Bool
  | .rejected i _ e => i == id && decide (e.code = ErrCode.CANCELLED)
  | _ => false

/-! ## Allocation sequences for the id-uniqueness property -/

/-- One id-allocating invocation against the registry: registerCall with
its continuation, timestamp and optional deadline, or openSubscription
with its sink. -/
inductive AllocOp (κ σ : Type) where
  | call (cont : κ) (now : Nat) (deadline : Option Nat)
  | sub (sink : σ)

/-- Apply one allocating invocation, returning the allocated call id. -/
def applyAlloc {κ σ : Type} : AllocOp κ σ → Registry κ σ → Nat × Registry κ σ
  | .call cont now deadline, r => r.registerCall cont now deadline
  | .sub sink, r => r.openSubscription sink

/-- Run a sequence of allocating invocations, collecting the returned
call ids in order. -/
def runAllocs {κ σ : Type} : List (AllocOp κ σ) → Registry κ σ → List Nat × Registry κ σ
  | [], r => ([], r)
  | op :: ops, r =>
    ((applyAlloc op r).1 :: (runAllocs ops (applyAlloc op r).2).1,
     (runAllocs ops (applyAlloc op r).2).2)

/-! ## Service Table and Dispatcher

Modelled from the spec: sections 4.3 and 4.4 of the design document; the
Service Table and Dispatcher implementations are not among the checked-in
sources.  A handler that throws is modelled as a handler returning an
error value carrying its message. -/

/-- Modelled from the spec: a registered handler is unary or server
streaming (section 3, ServiceRegistration); its body yields either a
result or the message of the application error it threw. -/
inductive Handler where
  | unary (run : List Nat → Except String (List Nat))
  | streaming (run : List Nat → Except String (List (List Nat)))

/-- Modelled from the spec: the Service Table maps service and method
names to handlers (section 4.4). -/
structure ServiceTable where
  entries : List ((String × String) × Handler)

/-- The empty service table. -/
def ServiceTable.empty : ServiceTable :=
  ⟨[]⟩

/-- Modelled from the spec: registration keeps the latest binding for a
key (section 4.4); the newest entry shadows older ones on lookup. -/
def ServiceTable.register (t : ServiceTable) (service method : String) (h : Handler) :
    ServiceTable :=
  ⟨((service, method), h) :: t.entries⟩

/-- Modelled from the spec: lookup of a service and method pair
(section 4.4). -/
def ServiceTable.lookup (t : ServiceTable) (service method : String) : Option Handler :=
  findEntry (service, method) t.entries

/-- The method-not-found error of section 4.4. -/
def methodNotFound (service method : String) : ErrorInfo :=
  ⟨.METHOD_NOT_FOUND, "method not found: " ++ service ++ "." ++ method⟩

/-- Does this handler, applied to this payload, throw the given
message? -/
def Handler.failsWith (h : Handler) (payload : List Nat) (msg : String) : Prop :=
  match h with
  | .unary run => run payload = .error msg
  | .streaming run => run payload = .error msg

/-- The outbound frame the dispatch boundary produces when a handler of
this shape throws: RESPONSE with error for unary, STREAM_ERROR for
streaming, both carrying a HANDLER_ERROR with the thrown message. -/
def Handler.errorFrameFor : Handler → Nat → String → Frame
  | .unary _, id, msg => .response id (.err ⟨.HANDLER_ERROR, msg⟩)
  | .streaming _, id, msg => .streamError id ⟨.HANDLER_ERROR, msg⟩

/-- Modelled from the spec: the per-frame dispatch state machine of
section 4.3.  Returns the updated registry, the consumer callbacks fired,
and the outbound frames produced by locally handled REQUESTs.  Handler
errors are caught here and become RESPONSE-with-error or STREAM_ERROR;
CANCEL only signals a running handler, which the batch handler model has
already finished, so it produces nothing. -/
def dispatch {κ σ : Type} (tbl : ServiceTable) (f : Frame) (r : Registry κ σ) :
    Registry κ σ × List (Effect κ σ) × List Frame :=
  match f with
  | .request id service method payload =>
    match tbl.lookup service method with
    | none => (r, [], [.response id (.err (methodNotFound service method))])
    | some (.unary run) =>
      match run payload with
      | .ok v => (r, [], [.response id (.ok v)])
      | .error msg => (r, [], [.response id (.err ⟨.HANDLER_ERROR, msg⟩)])
    | some (.streaming run) =>
      match run payload with
      | .ok evs => (r, [], (evs.map (Frame.streamEvent id)) ++ [.streamEnd id])
      | .error msg => (r, [], [.streamError id ⟨.HANDLER_ERROR, msg⟩])
  | .response id (.ok v) =>
    ((Registry.resolve id v r).1, (Registry.resolve id v r).2, [])
  | .response id (.err e) =>
    ((Registry.reject id e r).1, (Registry.reject id e r).2, [])
  | .streamEvent id payload =>
    ((Registry.feedEvent id payload r).1, (Registry.feedEvent id payload r).2, [])
  | .streamEnd id =>
    ((Registry.closeSubscription id none r).1, (Registry.closeSubscription id none r).2, [])
  | .streamError id e =>
    ((Registry.closeSubscription id (some e) r).1,
     (Registry.closeSubscription id (some e) r).2, [])
  | .cancel _ => (r, [], [])

/-- Process a sequence of inbound frames one at a time in arrival order
(the single-threaded event loop of section 5), accumulating fired
callbacks and outbound frames. -/
def dispatchAll {κ σ : Type} (tbl : ServiceTable) :
    List Frame → Registry κ σ → Registry κ σ × List (Effect κ σ) × List Frame
  | [], r => (r, [], [])
  | f :: fs, r =>
    ((dispatchAll tbl fs (dispatch tbl f r).1).1,
     (dispatch tbl f r).2.1 ++ (dispatchAll tbl fs (dispatch tbl f r).1).2.1,
     (dispatch tbl f r).2.2 ++ (dispatchAll tbl fs (dispatch tbl f r).1).2.2)

/-! ## Frame Codec

Modelled from the spec: section 4.1 fixes only the codec contract, not a
wire format, so a concrete length-prefixed format over abstract byte
lists is chosen here: encode is a pure function and decode is total,
returning a typed DecodeError on malformed input. -/

/-- A length-prefixed byte block. -/
def encBytes (xs : List Nat) : List Nat :=
  xs.length :: xs

/-- A length-prefixed string block of character codes. -/
def encString (s : String) : List Nat :=
  encBytes (s.data.map Char.toNat)

/-- Wire value of each error code. -/
def ErrCode.toWire : ErrCode → Nat
  | .DECODE_ERROR => 0
  | .METHOD_NOT_FOUND => 1
  | .HANDLER_ERROR => 2
  | .TIMEOUT => 3
  | .CANCELLED => 4
  | .TRANSPORT_CLOSED => 5

/-- Inverse of the error-code wire value. -/
def ErrCode.ofWire : Nat → Option ErrCode
  | 0 => some .DECODE_ERROR
  | 1 => some .METHOD_NOT_FOUND
  | 2 => some .HANDLER_ERROR
  | 3 => some .TIMEOUT
  | 4 => some .CANCELLED
  | 5 => some .TRANSPORT_CLOSED
  | _ => none

/-- An encoded errorInfo: code then message. -/
def encErr (e : ErrorInfo) : List Nat :=
  e.code.toWire :: encString e.message

/-- Modelled from the spec: encode serializes a frame to bytes, purely
and deterministically (section 4.1). -/
def encode : Frame → List Nat
  | .request id service method payload =>
    0 :: id :: (encString service ++ encString method ++ encBytes payload)
  | .response id (.ok v) => 1 :: id :: 0 :: encBytes v
  | .response id (.err e) => 1 :: id :: 1 :: encErr e
  | .streamEvent id payload => 2 :: id :: encBytes payload
  | .streamEnd id => [3, id]
  | .streamError id e => 4 :: id :: encErr e
  | .cancel id => [5, id]

/-- Modelled from the spec: the typed failure decode returns on malformed
input (section 4.1). -/
inductive DecodeError where
  | truncated
  | badTag
  | malformed
deriving DecidableEq, Repr

/-- Read one length-prefixed block. -/
def readBytes : List Nat → Option (List Nat × List Nat)
  | [] => none
  | n :: rest => if n ≤ rest.length then some (rest.take n, rest.drop n) else none

/-- Read one length-prefixed string block. -/
def readString (bs : List Nat) : Option (String × List Nat) :=
  (readBytes bs).map fun p => (String.mk (p.1.map Char.ofNat), p.2)

/-- Read one encoded errorInfo. -/
def readErr : List Nat → Option (ErrorInfo × List Nat)
  | [] => none
  | c :: rest =>
    match ErrCode.ofWire c with
    | none => none
    | some code => (readString rest).map fun p => (⟨code, p.1⟩, p.2)

/-- Modelled from the spec: decode is total, returning a Frame or a
typed DecodeError, never throwing (section 4.1). -/
def decode (bs : List Nat) : Except DecodeError Frame :=
  match bs with
  | tag :: id :: body =>
    match tag with
    | 0 =>
      match readString body with
      | some (service, r1) =>
        match readString r1 with
        | some (method, r2) =>
          match readBytes r2 with
          | some (payload, []) => .ok (.request id service method payload)
          | _ => .error .malformed
        | none => .error .malformed
      | none => .error .malformed
    | 1 =>
      match body with
      | 0 :: r1 =>
        match readBytes r1 with
        | some (v, []) => .ok (.response id (.ok v))
        | _ => .error .malformed
      | 1 :: r1 =>
        match readErr r1 with
        | some (e, []) => .ok (.response id (.err e))
        | _ => .error .malformed
      | _ => .error .malformed
    | 2 =>
      match readBytes body with
      | some (payload, []) => .ok (.streamEvent id payload)
      | _ => .error .malformed
    | 3 =>
      match body with
      | [] => .ok (.streamEnd id)
      | _ => .error .malformed
    | 4 =>
      match readErr body with
      | some (e, []) => .ok (.streamError id e)
      | _ => .error .malformed
    | 5 =>
      match body with
      | [] => .ok (.cancel id)
      | _ => .error .malformed
    | _ => .error .badTag
  | _ => .error .truncated

/-- The log line emitted when an inbound byte sequence fails to decode
and the frame is dropped (sections 4.1 and 7). -/
def decodeDropLog : DecodeError → String
  | .truncated => "decode error (truncated), frame dropped"
  | .badTag => "decode error (bad tag), frame dropped"
  | .malformed => "decode error (malformed), frame dropped"

/-- Modelled from the spec: the transport entry point of the Dispatcher;
a frame that fails to decode is logged and dropped, never surfaced to any
pending call (sections 4.1, 4.3 and 7). -/
def dispatchRaw {κ σ : Type} (tbl : ServiceTable) (bs : List Nat) (r : Registry κ σ) :
    Registry κ σ × List (Effect κ σ) × List Frame × List String :=
  match decode bs with
  | .ok f =>
    ((dispatch tbl f r).1, (dispatch tbl f r).2.1, (dispatch tbl f r).2.2, [])
  | .error e => (r, [], [], [decodeDropLog e])

/-! ## Concrete instances used to exercise the theorems -/

/-- A concrete registry snapshot: one pending call under id 0, two open
subscriptions under ids 1 and 2; callback tokens are numbers. -/
def demoRegistry : Registry Nat Nat :=
  ⟨3, [(0, ⟨100, 0, none⟩)], [(1, 200, SubState.OPEN), (2, 201, SubState.OPEN)]⟩

/-- Resolve id 0, then reject it again, then resolve an unknown id. -/
def demoSettleOps : List SettleOp :=
  [SettleOp.resolveOp 0 [7], SettleOp.rejectOp 0 ⟨ErrCode.TIMEOUT, "late"⟩,
   SettleOp.resolveOp 9 []]

/-- Two calls and two subscriptions allocated on one registry. -/
def demoAllocOps : List (AllocOp Nat Nat) :=
  [AllocOp.call 100 0 none, AllocOp.sub 200, AllocOp.call 101 1 (some 5),
   AllocOp.sub 201]

/-- A table whose only unary handler always throws. -/
def demoFailingTable : ServiceTable :=
  ServiceTable.empty.register "cline.UiService" "scrollToSettings"
    (Handler.unary fun _ => Except.error "boom")

/-- A concrete request frame for the codec theorems. -/
def demoFrame : Frame :=
  Frame.request 4 "cline.UiService" "scrollToSettings" [1, 2]
/-! ## Theorems -/

theorem findEntry_eq_none {α β : Type} [DecidableEq α] (k : α) (l : List (α × β)) :
    findEntry k l = none ↔ k ∉ keysOf l := by
  induction l with
  | nil => simp [findEntry, keysOf]
  | cons p rest ih =>
    obtain ⟨a, b⟩ := p
    by_cases h : a = k
    · subst h
      simp [findEntry, keysOf]
    · simp only [findEntry, if_neg h, keysOf, List.mem_cons, ih]
      constructor
      · intro hn hor
        rcases hor with hk | hm
        · exact h hk.symm
        · exact hn hm
      · intro hn hm
        exact hn (Or.inr hm)

theorem findEntry_isSome_of_mem {α β : Type} [DecidableEq α] (k : α) (l : List (α × β))
    (h : k ∈ keysOf l) : ∃ b, findEntry k l = some b := by
  rcases ho : findEntry k l with _ | b
  · exact absurd h ((findEntry_eq_none k l).1 ho)
  · exact ⟨b, rfl⟩

theorem removeEntry_of_not_mem {α β : Type} [DecidableEq α] (k : α) (l : List (α × β))
    (h : k ∉ keysOf l) : removeEntry k l = l := by
  induction l with
  | nil => rfl
  | cons p rest ih =>
    obtain ⟨a, b⟩ := p
    simp only [keysOf, List.mem_cons, not_or] at h
    rw [removeEntry, if_neg (fun hak => h.1 hak.symm), ih h.2]

theorem mem_keysOf_removeEntry_ne {α β : Type} [DecidableEq α] (k k' : α) (l : List (α × β))
    (hne : k' ≠ k) : k' ∈ keysOf (removeEntry k l) ↔ k' ∈ keysOf l := by
  induction l with
  | nil => simp [removeEntry]
  | cons p rest ih =>
    obtain ⟨a, b⟩ := p
    by_cases h : a = k
    · subst h
      simp [removeEntry, keysOf, hne]
    · simp [removeEntry, h, keysOf, ih]

theorem not_mem_keysOf_removeEntry {α β : Type} [DecidableEq α] (k : α) (l : List (α × β))
    (hnd : (keysOf l).Nodup) : k ∉ keysOf (removeEntry k l) := by
  induction l with
  | nil => simp [removeEntry, keysOf]
  | cons p rest ih =>
    obtain ⟨a, b⟩ := p
    simp only [keysOf, List.nodup_cons] at hnd
    by_cases h : a = k
    · subst h
      simpa [removeEntry] using hnd.1
    · simp only [removeEntry, if_neg h, keysOf, List.mem_cons, not_or]
      exact ⟨fun hk => h hk.symm, ih hnd.2⟩

theorem nodup_keysOf_removeEntry {α β : Type} [DecidableEq α] (k : α) (l : List (α × β))
    (hnd : (keysOf l).Nodup) : (keysOf (removeEntry k l)).Nodup := by
  induction l with
  | nil => simp [removeEntry, keysOf]
  | cons p rest ih =>
    obtain ⟨a, b⟩ := p
    simp only [keysOf, List.nodup_cons] at hnd
    by_cases h : a = k
    · subst h
      simpa [removeEntry] using hnd.2
    · simp only [removeEntry, if_neg h, keysOf, List.nodup_cons]
      exact ⟨fun hm => hnd.1 ((mem_keysOf_removeEntry_ne k a rest h).1 hm), ih hnd.2⟩

theorem findEntry_removeEntry_ne {α β : Type} [DecidableEq α] (k k' : α) (l : List (α × β))
    (hne : k' ≠ k) : findEntry k' (removeEntry k l) = findEntry k' l := by
  induction l with
  | nil => rfl
  | cons p rest ih =>
    obtain ⟨a, b⟩ := p
    by_cases h : a = k
    · subst h
      rw [removeEntry, if_pos rfl, findEntry, if_neg (fun hk => hne hk.symm)]
    · rw [removeEntry, if_neg h, findEntry, findEntry]
      by_cases h2 : a = k'
      · rw [if_pos h2, if_pos h2]
      · rw [if_neg h2, if_neg h2, ih]

theorem applySettle_pending {κ σ : Type} (op : SettleOp) (r : Registry κ σ) :
    (applySettle op r).1.pending = removeEntry op.callId r.pending := by
  cases op with
  | resolveOp id v =>
    rw [applySettle, Registry.resolve]
    rcases h : findEntry id r.pending with _ | pc
    · simp [SettleOp.callId,
        removeEntry_of_not_mem id r.pending ((findEntry_eq_none id r.pending).1 h)]
    · rfl
  | rejectOp id e =>
    rw [applySettle, Registry.reject]
    rcases h : findEntry id r.pending with _ | pc
    · simp [SettleOp.callId,
        removeEntry_of_not_mem id r.pending ((findEntry_eq_none id r.pending).1 h)]
    · rfl

theorem applySettle_subs {κ σ : Type} (op : SettleOp) (r : Registry κ σ) :
    (applySettle op r).1.subs = r.subs := by
  cases op with
  | resolveOp id v =>
    rw [applySettle, Registry.resolve]
    rcases h : findEntry id r.pending with _ | pc <;> rfl
  | rejectOp id e =>
    rw [applySettle, Registry.reject]
    rcases h : findEntry id r.pending with _ | pc <;> rfl

theorem applySettle_countP {κ σ : Type} (op : SettleOp) (r : Registry κ σ) (id : Nat) :
    ((applySettle op r).2.countP (Effect.isSettleOf id)) =
      if op.callId = id ∧ op.callId ∈ keysOf r.pending then 1 else 0 := by
  cases op with
  | resolveOp i v =>
    rw [applySettle, Registry.resolve]
    rcases h : findEntry i r.pending with _ | pc
    · have hnm := (findEntry_eq_none i r.pending).1 h
      simp [SettleOp.callId, hnm]
    · have hm : i ∈ keysOf r.pending := by
        by_contra hnm
        rw [(findEntry_eq_none i r.pending).2 hnm] at h
        exact Option.noConfusion h
      by_cases hid : i = id
      · subst hid
        simp [List.countP, List.countP.go, Effect.isSettleOf, SettleOp.callId, hm]
      · have hb : (i == id) = false := by
          simpa using hid
        simp [List.countP, List.countP.go, Effect.isSettleOf, SettleOp.callId, hid, hm, hb]
  | rejectOp i e =>
    rw [applySettle, Registry.reject]
    rcases h : findEntry i r.pending with _ | pc
    · have hnm := (findEntry_eq_none i r.pending).1 h
      simp [SettleOp.callId, hnm]
    · have hm : i ∈ keysOf r.pending := by
        by_contra hnm
        rw [(findEntry_eq_none i r.pending).2 hnm] at h
        exact Option.noConfusion h
      by_cases hid : i = id
      · subst hid
        simp [List.countP, List.countP.go, Effect.isSettleOf, SettleOp.callId, hm]
      · have hb : (i == id) = false := by
          simpa using hid
        simp [List.countP, List.countP.go, Effect.isSettleOf, SettleOp.callId, hid, hm, hb]

/-- C1: for every call id, any sequence of resolve and reject invocations
fires the consumer continuation exactly once in total when the id is
registered and some attempt targets it, and zero times otherwise; the
first settlement removes the entry, and every later attempt on that id or
on an unknown id is a no-op (the operations are total functions, so none
of them can throw). -/
theorem registry_settlement_at_most_once {κ σ : Type} (r : Registry κ σ)
    (hnd : (keysOf r.pending).Nodup) (id : Nat) (ops : List SettleOp) :
    ((runSettles ops r).2.countP (Effect.isSettleOf id)) =
      (if id ∈ keysOf r.pending ∧ ops.any (fun op => op.callId == id) then 1 else 0) ∧
    (id ∈ keysOf (runSettles ops r).1.pending ↔
      id ∈ keysOf r.pending ∧ ∀ op ∈ ops, op.callId ≠ id) := by
  induction ops generalizing r with
  | nil => simp [runSettles]
  | cons op ops ih =>
    have hpend := applySettle_pending op r
    have hnd1 : (keysOf (applySettle op r).1.pending).Nodup := by
      rw [hpend]
      exact nodup_keysOf_removeEntry _ _ hnd
    obtain ⟨ihc, ihm⟩ := ih (applySettle op r).1 hnd1
    constructor
    · simp only [runSettles, List.countP_append]
      rw [applySettle_countP, ihc]
      by_cases hc : op.callId = id
      · by_cases hm : id ∈ keysOf r.pending
        · have hnotm : id ∉ keysOf (applySettle op r).1.pending := by
            rw [hpend, hc]
            exact not_mem_keysOf_removeEntry id r.pending hnd
          simp [hc, hm, hnotm, List.any_cons]
        · have hkeep : (applySettle op r).1.pending = r.pending := by
            rw [hpend, hc]
            exact removeEntry_of_not_mem id r.pending hm
          simp [hc, hm, hkeep]
      · have hmem : id ∈ keysOf (applySettle op r).1.pending ↔ id ∈ keysOf r.pending := by
          rw [hpend]
          exact mem_keysOf_removeEntry_ne op.callId id r.pending (fun h => hc h.symm)
        have hb : (op.callId == id) = false := by
          simpa using hc
        simp [hc, hmem, List.any_cons, hb]
    · simp only [runSettles]
      rw [ihm]
      by_cases hc : op.callId = id
      · by_cases hm : id ∈ keysOf r.pending
        · have hnotm : id ∉ keysOf (applySettle op r).1.pending := by
            rw [hpend, hc]
            exact not_mem_keysOf_removeEntry id r.pending hnd
          simp [hnotm, List.forall_mem_cons, hc]
        · have hkeep : (applySettle op r).1.pending = r.pending := by
            rw [hpend, hc]
            exact removeEntry_of_not_mem id r.pending hm
          simp [hkeep, hm, List.forall_mem_cons, hc]
      · have hmem : id ∈ keysOf (applySettle op r).1.pending ↔ id ∈ keysOf r.pending := by
          rw [hpend]
          exact mem_keysOf_removeEntry_ne op.callId id r.pending (fun h => hc h.symm)
        simp [hmem, List.forall_mem_cons, hc]

/-! ### Codec lemmas -/

theorem readBytes_enc (xs rest : List Nat) :
    readBytes (encBytes xs ++ rest) = some (xs, rest) := by
  simp [encBytes, readBytes, List.take_left, List.drop_left]

theorem readBytes_enc_nil (xs : List Nat) :
    readBytes (encBytes xs) = some (xs, []) := by
  simpa using readBytes_enc xs []

theorem readString_enc (s : String) (rest : List Nat) :
    readString (encString s ++ rest) = some (s, rest) := by
  obtain ⟨data⟩ := s
  simp [readString, encString, readBytes_enc, List.map_map, Function.comp_def,
    Char.ofNat_toNat]

theorem errCode_ofWire_toWire (c : ErrCode) : ErrCode.ofWire c.toWire = some c := by
  cases c <;> rfl

theorem readErr_enc (e : ErrorInfo) (rest : List Nat) :
    readErr (encErr e ++ rest) = some (e, rest) := by
  obtain ⟨c, m⟩ := e
  simp [readErr, encErr, errCode_ofWire_toWire, readString_enc]

theorem readErr_enc_nil (e : ErrorInfo) : readErr (encErr e) = some (e, []) := by
  simpa using readErr_enc e []

/-- C6: decoding an encoded frame recovers the frame, for every
constructible frame; and encoding is deterministic, two encodings of the
same logical frame are byte identical. -/
theorem codec_round_trip :
    (∀ f : Frame, decode (encode f) = Except.ok f) ∧
    (∀ f g : Frame, f = g → encode f = encode g) := by
  constructor
  · intro f
    cases f with
    | request id service method payload =>
      simp [encode, decode, List.append_assoc, readString_enc, readBytes_enc_nil]
    | response id res =>
      cases res with
      | ok v => simp [encode, decode, readBytes_enc_nil]
      | err e => simp [encode, decode, readErr_enc_nil]
    | streamEvent id payload => simp [encode, decode, readBytes_enc_nil]
    | streamEnd id => rfl
    | streamError id e => simp [encode, decode, readErr_enc_nil]
    | cancel id => rfl
  · intro f g h
    rw [h]

/-- Witness for C6 at a concrete request frame. -/
theorem codec_round_trip_witness : decode (encode demoFrame) = Except.ok demoFrame :=
  codec_round_trip.1 demoFrame

/-- C7: decode is total, yielding a frame or a typed DecodeError on every
byte sequence; and when it fails the dispatcher logs and drops the bytes,
leaving the registry untouched and firing no callback of any pending
call. -/
theorem decode_total_never_throws :
    (∀ bs : List Nat, (∃ f, decode bs = Except.ok f) ∨ (∃ e, decode bs = Except.error e)) ∧
    (∀ (κ σ : Type) (tbl : ServiceTable) (bs : List Nat) (r : Registry κ σ)
       (e : DecodeError), decode bs = Except.error e →
       dispatchRaw tbl bs r = (r, [], [], [decodeDropLog e])) := by
  constructor
  · intro bs
    rcases h : decode bs with e | f
    · exact Or.inr ⟨e, rfl⟩
    · exact Or.inl ⟨f, rfl⟩
  · intro κ σ tbl bs r e h
    simp [dispatchRaw, h]

/-- Witness for C7: a one-byte input fails to decode and is dropped with
the registry left untouched. -/
theorem decode_total_never_throws_witness :
    dispatchRaw ServiceTable.empty [9] (Registry.empty Nat Nat) =
      (Registry.empty Nat Nat, [], [], [decodeDropLog DecodeError.truncated]) :=
  decode_total_never_throws.2 Nat Nat ServiceTable.empty [9] (Registry.empty Nat Nat)
    DecodeError.truncated rfl

/-! ### Id allocation -/

theorem alloc_ids_eq_range {κ σ : Type} (ops : List (AllocOp κ σ)) (r : Registry κ σ) :
    (runAllocs ops r).1 = List.range' r.nextId ops.length := by
  induction ops generalizing r with
  | nil => simp [runAllocs]
  | cons op ops ih =>
    have h1 : (applyAlloc op r).1 = r.nextId := by
      cases op <;> rfl
    have h2 : (applyAlloc op r).2.nextId = r.nextId + 1 := by
      cases op <;> rfl
    simp [runAllocs, h1, ih, h2, List.range']

/-- C5: any number of registerCall and openSubscription invocations on
one registry return pairwise distinct call ids, one per invocation. -/
theorem alloc_ids_pairwise_distinct {κ σ : Type} (ops : List (AllocOp κ σ))
    (r : Registry κ σ) :
    (runAllocs ops r).1.Nodup ∧ (runAllocs ops r).1.length = ops.length := by
  rw [alloc_ids_eq_range]
  exact ⟨List.nodup_range' r.nextId ops.length, by simp⟩

/-- Witness for C5 on four concrete allocations against a fresh
registry. -/
theorem alloc_ids_pairwise_distinct_witness :
    (runAllocs demoAllocOps (Registry.empty Nat Nat)).1.Nodup ∧
    (runAllocs demoAllocOps (Registry.empty Nat Nat)).1.length = demoAllocOps.length :=
  alloc_ids_pairwise_distinct demoAllocOps (Registry.empty Nat Nat)

/-! ### Response isolation -/

/-- C2: dispatching an inbound RESPONSE frame for call id X settles only
the entry registered under X: for every other id Y the pending entry
(with its continuation) and the subscription entry (with its sink and
state) are unchanged, and every callback fired by the dispatch belongs to
X. -/
theorem response_isolation {κ σ : Type} (tbl : ServiceTable) (r : Registry κ σ)
    (X : Nat) (res : CallResult) (Y : Nat) (hne : Y ≠ X) :
    findEntry Y (dispatch tbl (Frame.response X res) r).1.pending = findEntry Y r.pending ∧
    findEntry Y (dispatch tbl (Frame.response X res) r).1.subs = findEntry Y r.subs ∧
    ∀ e ∈ (dispatch tbl (Frame.response X res) r).2.1, e.callId = X := by
  cases res with
  | ok v =>
    simp only [dispatch, Registry.resolve]
    rcases h : findEntry X r.pending with _ | pc
    · simp
    · simp [findEntry_removeEntry_ne X Y r.pending hne, Effect.callId]
  | err e =>
    simp only [dispatch, Registry.reject]
    rcases h : findEntry X r.pending with _ | pc
    · simp
    · simp [findEntry_removeEntry_ne X Y r.pending hne, Effect.callId]

/-- Witness for C2: a RESPONSE for id 0 leaves id 1 untouched in the
concrete registry. -/
theorem response_isolation_witness :
    findEntry 1 (dispatch ServiceTable.empty (Frame.response 0 (CallResult.ok []))
        demoRegistry).1.pending = findEntry 1 demoRegistry.pending ∧
    findEntry 1 (dispatch ServiceTable.empty (Frame.response 0 (CallResult.ok []))
        demoRegistry).1.subs = findEntry 1 demoRegistry.subs ∧
    ∀ e ∈ (dispatch ServiceTable.empty (Frame.response 0 (CallResult.ok []))
        demoRegistry).2.1, e.callId = 0 :=
  response_isolation ServiceTable.empty demoRegistry 0 (CallResult.ok []) 1 (by decide)

/-! ### Event delivery guard -/

/-- C4: feedEvent fires the sink iff the subscription exists with state
OPEN; it never changes the registry; when it fires it delivers exactly
the one event to the stored sink; and once the subscription has been
closed or cancelled (entry removed), every later feedEvent for that id
fires nothing. -/
theorem feedEvent_fires_iff_open {κ σ : Type} (r : Registry κ σ) (id : Nat)
    (v : List Nat) (hnd : (keysOf r.subs).Nodup) :
    ((Registry.feedEvent id v r).2 ≠ [] ↔
      ∃ s, findEntry id r.subs = some (s, SubState.OPEN)) ∧
    (Registry.feedEvent id v r).1 = r ∧
    (∀ s, findEntry id r.subs = some (s, SubState.OPEN) →
      (Registry.feedEvent id v r).2 = [Effect.event id s v]) ∧
    (∀ err? : Option ErrorInfo,
      (Registry.feedEvent id v (Registry.closeSubscription id err? r).1).2 = []) := by
  have hclosed : ∀ err? : Option ErrorInfo,
      (Registry.feedEvent id v (Registry.closeSubscription id err? r).1).2 = [] := by
    intro err?
    rw [Registry.closeSubscription]
    rcases h : findEntry id r.subs with _ | ⟨s, st⟩
    · rw [Registry.feedEvent]
      rw [h]
    · rw [Registry.feedEvent]
      have hout : findEntry id (removeEntry id r.subs) = none :=
        (findEntry_eq_none id (removeEntry id r.subs)).2
          (not_mem_keysOf_removeEntry id r.subs hnd)
      simp only [hout]
  rcases h : findEntry id r.subs with _ | ⟨s, st⟩
  · refine ⟨?_, ?_, ?_, hclosed⟩
    · rw [Registry.feedEvent, h]
      simp
    · rw [Registry.feedEvent, h]
    · intro s hs
      exact Option.noConfusion hs
  · cases st with
    | OPEN =>
      refine ⟨?_, ?_, ?_, hclosed⟩
      · rw [Registry.feedEvent, h]
        simp [h]
      · rw [Registry.feedEvent, h]
      · intro s' hs
        obtain rfl : s = s' := congrArg Prod.fst (Option.some.inj hs)
        simp [Registry.feedEvent, h]
    | CLOSED =>
      refine ⟨?_, ?_, ?_, hclosed⟩
      · rw [Registry.feedEvent, h]
        simp [h]
      · rw [Registry.feedEvent, h]
      · intro s' hs
        have hx : SubState.CLOSED = SubState.OPEN :=
          congrArg Prod.snd (Option.some.inj hs)
        exact absurd hx (by decide)

/-- Witness for C4 at id 1 of the concrete registry. -/
theorem feedEvent_fires_iff_open_witness :
    ((Registry.feedEvent 1 [5] demoRegistry).2 ≠ [] ↔
      ∃ s, findEntry 1 demoRegistry.subs = some (s, SubState.OPEN)) ∧
    (Registry.feedEvent 1 [5] demoRegistry).1 = demoRegistry ∧
    (∀ s, findEntry 1 demoRegistry.subs = some (s, SubState.OPEN) →
      (Registry.feedEvent 1 [5] demoRegistry).2 = [Effect.event 1 s [5]]) ∧
    (∀ err? : Option ErrorInfo,
      (Registry.feedEvent 1 [5]
        (Registry.closeSubscription 1 err? demoRegistry).1).2 = []) :=
  feedEvent_fires_iff_open demoRegistry 1 [5] (by decide)

/-! ### Stream ordering -/

/-- C9: dispatching k STREAM_EVENT frames for one call id followed by
STREAM_END delivers exactly those k payloads to the stored sink in
arrival order and then completes the subscription without error,
removing its entry. -/
theorem stream_events_in_order {κ σ : Type} (tbl : ServiceTable) (r : Registry κ σ)
    (id : Nat) (sink : σ) (vs : List (List Nat))
    (hopen : findEntry id r.subs = some (sink, SubState.OPEN)) :
    dispatchAll tbl ((vs.map (Frame.streamEvent id)) ++ [Frame.streamEnd id]) r =
      ({ r with subs := removeEntry id r.subs },
       (vs.map fun v => Effect.event id sink v) ++ [Effect.completed id sink],
       []) := by
  induction vs with
  | nil =>
    simp [dispatchAll, dispatch, Registry.closeSubscription, hopen]
  | cons v vs ih =>
    have hfe : dispatch tbl (Frame.streamEvent id v) r =
        (r, [Effect.event id sink v], []) := by
      simp [dispatch, Registry.feedEvent, hopen]
    simp [dispatchAll, hfe, ih]

/-- Witness for C9: three events then end on subscription 1 of the
concrete registry. -/
theorem stream_events_in_order_witness :
    dispatchAll ServiceTable.empty
        (([[1], [2], [3]].map (Frame.streamEvent 1)) ++ [Frame.streamEnd 1])
        demoRegistry =
      ({ demoRegistry with subs := removeEntry 1 demoRegistry.subs },
       ([[1], [2], [3]].map fun v => Effect.event 1 200 v) ++ [Effect.completed 1 200],
       []) :=
  stream_events_in_order ServiceTable.empty demoRegistry 1 200 [[1], [2], [3]] rfl

/-! ### Handler failure containment -/

/-- C8: when a looked-up handler throws, the dispatch boundary catches it
and produces exactly one outbound error frame of the matching kind
(RESPONSE with error for unary, STREAM_ERROR for streaming) carrying the
handler message with code HANDLER_ERROR; the registry is untouched, no
consumer callback fires, and dispatching any further frames proceeds
exactly as it would have without the failing request. -/
theorem handler_error_contained {κ σ : Type} (tbl : ServiceTable) (r : Registry κ σ)
    (service method : String) (payload : List Nat) (id : Nat) (h : Handler)
    (msg : String) (hfound : tbl.lookup service method = some h)
    (hfail : h.failsWith payload msg) :
    dispatch tbl (Frame.request id service method payload) r =
      (r, [], [h.errorFrameFor id msg]) ∧
    (∀ rest : List Frame,
      dispatchAll tbl (Frame.request id service method payload :: rest) r =
        ((dispatchAll tbl rest r).1, (dispatchAll tbl rest r).2.1,
         h.errorFrameFor id msg :: (dispatchAll tbl rest r).2.2)) := by
  have hd : dispatch tbl (Frame.request id service method payload) r =
      (r, [], [h.errorFrameFor id msg]) := by
    cases h with
    | unary run =>
      rw [Handler.failsWith] at hfail
      simp [dispatch, hfound, hfail, Handler.errorFrameFor]
    | streaming run =>
      rw [Handler.failsWith] at hfail
      simp [dispatch, hfound, hfail, Handler.errorFrameFor]
  refine ⟨hd, fun rest => ?_⟩
  simp [dispatchAll, hd]

/-- Witness for C8: the always-throwing unary handler of the concrete
table fails a request while leaving the registry untouched. -/
theorem handler_error_contained_witness :
    dispatch demoFailingTable (Frame.request 4 "cline.UiService" "scrollToSettings" [1, 2])
        (Registry.empty Nat Nat) =
      (Registry.empty Nat Nat, [],
       [(Handler.unary fun _ => Except.error "boom").errorFrameFor 4 "boom"]) ∧
    (∀ rest : List Frame,
      dispatchAll demoFailingTable
          (Frame.request 4 "cline.UiService" "scrollToSettings" [1, 2] :: rest)
          (Registry.empty Nat Nat) =
        ((dispatchAll demoFailingTable rest (Registry.empty Nat Nat)).1,
         (dispatchAll demoFailingTable rest (Registry.empty Nat Nat)).2.1,
         (Handler.unary fun _ => Except.error "boom").errorFrameFor 4 "boom" ::
           (dispatchAll demoFailingTable rest (Registry.empty Nat Nat)).2.2)) :=
  handler_error_contained demoFailingTable (Registry.empty Nat Nat) "cline.UiService"
    "scrollToSettings" [1, 2] 4 (Handler.unary fun _ => Except.error "boom") "boom"
    rfl rfl

/-- Witness for C1: id 0 of the concrete registry is settled exactly once
across a resolve, a duplicate reject, and a resolve of an unknown id, and
its entry is gone afterwards. -/
theorem registry_settlement_at_most_once_witness :
    ((runSettles demoSettleOps demoRegistry).2.countP (Effect.isSettleOf 0)) =
      (if 0 ∈ keysOf demoRegistry.pending ∧
          demoSettleOps.any (fun op => op.callId == 0) then 1 else 0) ∧
    (0 ∈ keysOf (runSettles demoSettleOps demoRegistry).1.pending ↔
      0 ∈ keysOf demoRegistry.pending ∧ ∀ op ∈ demoSettleOps, op.callId ≠ 0) :=
  registry_settlement_at_most_once demoRegistry (by decide) 0 demoSettleOps

/-! ### Teardown completeness -/

theorem countP_rejectAll_zero {κ σ : Type} (l : List (Nat × PendingCall κ)) (id : Nat)
    (h : id ∉ keysOf l) :
    ((rejectAllEffects l : List (Effect κ σ)).countP (Effect.isCancelRejectOf id)) = 0 := by
  induction l with
  | nil => rfl
  | cons p rest ih =>
    obtain ⟨a, pc⟩ := p
    simp only [keysOf, List.mem_cons, not_or] at h
    have hb : (a == id) = false := by
      simpa using fun hx : a = id => h.1 hx.symm
    have ih2 := ih h.2
    simp only [rejectAllEffects] at ih2
    simp [rejectAllEffects, List.countP_cons, Effect.isCancelRejectOf, hb, ih2]

theorem countP_rejectAll_one {κ σ : Type} (l : List (Nat × PendingCall κ)) (id : Nat)
    (hnd : (keysOf l).Nodup) (hm : id ∈ keysOf l) :
    ((rejectAllEffects l : List (Effect κ σ)).countP (Effect.isCancelRejectOf id)) = 1 := by
  induction l with
  | nil => cases hm
  | cons p rest ih =>
    obtain ⟨a, pc⟩ := p
    simp only [keysOf, List.nodup_cons] at hnd
    simp only [keysOf, List.mem_cons] at hm
    rcases hm with hm | hm
    · subst hm
      have hz : ((rejectAllEffects rest : List (Effect κ σ)).countP
          (Effect.isCancelRejectOf id)) = 0 :=
        countP_rejectAll_zero rest id hnd.1
      simp only [rejectAllEffects] at hz ⊢
      rw [List.map_cons, List.countP_cons, hz]
      simp [Effect.isCancelRejectOf, cancelledError]
    · have hne : (a == id) = false := by
        simpa using fun hx : a = id => hnd.1 (hx ▸ hm)
      have h1 := ih hnd.2 hm
      simp only [rejectAllEffects] at h1
      simp [rejectAllEffects, List.countP_cons, Effect.isCancelRejectOf, hne, h1]

theorem countP_rejectAll_terminal {κ σ : Type} (l : List (Nat × PendingCall κ)) (id : Nat) :
    ((rejectAllEffects l : List (Effect κ σ)).countP (Effect.isTerminalOf id)) = 0 := by
  induction l with
  | nil => rfl
  | cons p rest ih =>
    obtain ⟨a, pc⟩ := p
    simp only [rejectAllEffects] at ih
    simp [rejectAllEffects, List.countP_cons, Effect.isTerminalOf, ih]

theorem countP_closeAll_cancelreject {κ σ : Type} (l : List (Nat × σ × SubState))
    (id : Nat) :
    ((closeAllEffects l : List (Effect κ σ)).countP (Effect.isCancelRejectOf id)) = 0 := by
  induction l with
  | nil => rfl
  | cons p rest ih =>
    obtain ⟨a, s, st⟩ := p
    simp only [closeAllEffects] at ih
    cases st <;>
      simp [closeAllEffects, List.filterMap_cons, List.countP_cons,
        Effect.isCancelRejectOf, ih]

theorem countP_closeAll_zero {κ σ : Type} (l : List (Nat × σ × SubState)) (id : Nat)
    (h : id ∉ keysOf l) :
    ((closeAllEffects l : List (Effect κ σ)).countP (Effect.isTerminalOf id)) = 0 := by
  induction l with
  | nil => rfl
  | cons p rest ih =>
    obtain ⟨a, s, st⟩ := p
    simp only [keysOf, List.mem_cons, not_or] at h
    have hb : (a == id) = false := by
      simpa using fun hx : a = id => h.1 hx.symm
    have ih2 := ih h.2
    simp only [closeAllEffects] at ih2
    cases st <;>
      simp [closeAllEffects, List.filterMap_cons, List.countP_cons,
        Effect.isTerminalOf, hb, ih2]

theorem mem_keysOf_of_mem_openIds {σ : Type} (l : List (Nat × σ × SubState)) (id : Nat)
    (h : id ∈ openIdsOf l) : id ∈ keysOf l := by
  induction l with
  | nil => exact absurd h (by simp [openIdsOf])
  | cons p rest ih =>
    obtain ⟨a, s, st⟩ := p
    cases st with
    | OPEN =>
      have hval : openIdsOf ((a, s, SubState.OPEN) :: rest) = a :: openIdsOf rest := by
        simp [openIdsOf, List.filterMap_cons]
      rw [hval] at h
      rcases List.mem_cons.mp h with h | h
      · simp [keysOf, h]
      · simp [keysOf, ih h]
    | CLOSED =>
      have hval : openIdsOf ((a, s, SubState.CLOSED) :: rest) = openIdsOf rest := by
        simp [openIdsOf, List.filterMap_cons]
      rw [hval] at h
      simp [keysOf, ih h]

theorem countP_closeAll_one {κ σ : Type} (l : List (Nat × σ × SubState)) (id : Nat)
    (hnd : (keysOf l).Nodup) (hm : id ∈ openIdsOf l) :
    ((closeAllEffects l : List (Effect κ σ)).countP (Effect.isTerminalOf id)) = 1 := by
  induction l with
  | nil => exact absurd hm (by simp [openIdsOf])
  | cons p rest ih =>
    obtain ⟨a, s, st⟩ := p
    simp only [keysOf, List.nodup_cons] at hnd
    cases st with
    | OPEN =>
      have hval : openIdsOf ((a, s, SubState.OPEN) :: rest) = a :: openIdsOf rest := by
        simp [openIdsOf, List.filterMap_cons]
      rw [hval] at hm
      rcases List.mem_cons.mp hm with hm | hm
      · subst hm
        have hz : ((closeAllEffects rest : List (Effect κ σ)).countP
            (Effect.isTerminalOf id)) = 0 :=
          countP_closeAll_zero rest id hnd.1
        simp only [closeAllEffects] at hz
        simp [closeAllEffects, List.filterMap_cons, List.countP_cons,
          Effect.isTerminalOf, hz]
      · have hne : (a == id) = false := by
          simpa using fun hx : a = id => hnd.1 (hx ▸ mem_keysOf_of_mem_openIds rest id hm)
        have h1 := ih hnd.2 hm
        simp only [closeAllEffects] at h1
        simp [closeAllEffects, List.filterMap_cons, List.countP_cons,
          Effect.isTerminalOf, hne, h1]
    | CLOSED =>
      have hval : openIdsOf ((a, s, SubState.CLOSED) :: rest) = openIdsOf rest := by
        simp [openIdsOf, List.filterMap_cons]
      rw [hval] at hm
      have h1 := ih hnd.2 hm
      simp only [closeAllEffects] at h1
      simp [closeAllEffects, List.filterMap_cons, List.countP_cons, h1]

/-- C3: after cancelAll, the registry is left with no entries; every
subscription that was open beforehand has received exactly one terminal
signal; every pending unary call has been rejected exactly once with a
CANCELLED error; and any subsequent feedEvent on any id has no effect. -/
theorem cancelAll_teardown {κ σ : Type} (r : Registry κ σ)
    (hndp : (keysOf r.pending).Nodup) (hnds : (keysOf r.subs).Nodup) :
    (Registry.cancelAll r).1.pending = [] ∧
    (Registry.cancelAll r).1.subs = [] ∧
    (∀ id ∈ openSubIds r,
      ((Registry.cancelAll r).2.countP (Effect.isTerminalOf id)) = 1) ∧
    (∀ id ∈ keysOf r.pending,
      ((Registry.cancelAll r).2.countP (Effect.isCancelRejectOf id)) = 1) ∧
    (∀ (id : Nat) (v : List Nat),
      Registry.feedEvent id v (Registry.cancelAll r).1 = ((Registry.cancelAll r).1, [])) := by
  refine ⟨rfl, rfl, ?_, ?_, ?_⟩
  · intro id hm
    simp only [openSubIds] at hm
    simp only [Registry.cancelAll]
    rw [List.countP_append, countP_rejectAll_terminal r.pending id,
      countP_closeAll_one r.subs id hnds hm]
  · intro id hm
    simp only [Registry.cancelAll]
    rw [List.countP_append, countP_rejectAll_one r.pending id hndp hm,
      countP_closeAll_cancelreject r.subs id]
  · intro id v
    rfl

/-- Witness for C3 on the concrete registry with one pending call and two
open subscriptions. -/
theorem cancelAll_teardown_witness :
    (Registry.cancelAll demoRegistry).1.pending = [] ∧
    (Registry.cancelAll demoRegistry).1.subs = [] ∧
    (∀ id ∈ openSubIds demoRegistry,
      ((Registry.cancelAll demoRegistry).2.countP (Effect.isTerminalOf id)) = 1) ∧
    (∀ id ∈ keysOf demoRegistry.pending,
      ((Registry.cancelAll demoRegistry).2.countP (Effect.isCancelRejectOf id)) = 1) ∧
    (∀ (id : Nat) (v : List Nat),
      Registry.feedEvent id v (Registry.cancelAll demoRegistry).1 =
        ((Registry.cancelAll demoRegistry).1, [])) :=
  cancelAll_teardown demoRegistry (by decide) (by decide)

/-! ### The UiService declaration -/

/-- C10: UiService declares exactly six methods, two unary
(scrollToSettings from StringRequest to Empty, onDidShowAnnouncement from
EmptyRequest to Boolean) and four server-streaming subscriptions; each of
the three button-clicked streams emits Empty pulses, subscribeToAddToInput
streams String payloads, and WebviewProviderType admits exactly the two
values SIDEBAR with value 0 and TAB with value 1. -/
theorem ui_service_surface :
    UiService.length = 6 ∧
    (UiService.countP fun d => d.streaming) = 4 ∧
    (UiService.countP fun d => !d.streaming) = 2 ∧
    (⟨"scrollToSettings", ProtoType.StringRequestT, ProtoType.EmptyT, false⟩ : RpcDecl)
      ∈ UiService ∧
    (⟨"onDidShowAnnouncement", ProtoType.EmptyRequestT, ProtoType.BooleanT, false⟩ :
      RpcDecl) ∈ UiService ∧
    (⟨"subscribeToAddToInput", ProtoType.EmptyRequestT, ProtoType.StringT, true⟩ :
      RpcDecl) ∈ UiService ∧
    (⟨"subscribeToMcpButtonClicked", ProtoType.WebviewProviderTypeRequestT,
      ProtoType.EmptyT, true⟩ : RpcDecl) ∈ UiService ∧
    (⟨"subscribeToHistoryButtonClicked", ProtoType.WebviewProviderTypeRequestT,
      ProtoType.EmptyT, true⟩ : RpcDecl) ∈ UiService ∧
    (⟨"subscribeToChatButtonClicked", ProtoType.EmptyRequestT, ProtoType.EmptyT,
      true⟩ : RpcDecl) ∈ UiService ∧
    (∀ w : WebviewProviderType,
      w = WebviewProviderType.SIDEBAR ∨ w = WebviewProviderType.TAB) ∧
    WebviewProviderType.toNat WebviewProviderType.SIDEBAR = 0 ∧
    WebviewProviderType.toNat WebviewProviderType.TAB = 1 := by
  refine ⟨rfl, rfl, rfl, ?_, ?_, ?_, ?_, ?_, ?_, ?_, rfl, rfl⟩
  · simp [UiService]
  · simp [UiService]
  · simp [UiService]
  · simp [UiService]
  · simp [UiService]
  · simp [UiService]
  · intro w
    cases w
    · exact Or.inl rfl
    · exact Or.inr rfl

/-- Witness for C10: the service declares six methods. -/
theorem ui_service_surface_witness : UiService.length = 6 :=
  ui_service_surface.1
